import Mathlib

/-!
# Verification of the `Universe` core of wasm-game-of-life

Shallow embedding of `src/lib.rs`.  The Rust `FixedBitSet` is modelled as a
`List Bool` whose length plays the role of the bit set's length:
* reading (`Index` / `contains`) an out-of-range bit returns `false`
  (the crate's `contains` returns `false` past the end, it never panics);
* writing (`FixedBitSet::set`) asserts `bit < length`, i.e. panics out of
  range, modelled by `Option` (`none` = panic).
`u32` values are modelled as `Nat`; the arithmetic in the claims stays far
below `2^32`, where `u32` and `Nat` arithmetic agree.
-/

/-- `FixedBitSet::with_capacity(size)`: a fresh all-zero bit set. -/
def fbsWithCapacity (size : Nat) : List Bool :=
  List.replicate size false

/-- `FixedBitSet` read access (`self.cells[idx]`, via `contains`):
out-of-range reads yield `false`, they never panic. -/
def fbsGet (bits : List Bool) (i : Nat) : Bool :=
  bits.getD i false

/-- `FixedBitSet::set(bit, enabled)`: panics (`none`) when `bit ≥ length`. -/
def fbsSet (bits : List Bool) (i : Nat) (b : Bool) : Option (List Bool) :=
  if i < bits.length then some (bits.set i b) else none

/-- The `Universe` struct of `src/lib.rs`. -/
structure Universe where
  width : Nat
  height : Nat
  cells : List Bool
deriving DecidableEq, Repr

namespace Universe

/-- `fn get_index(&self, row, col) -> usize { (row * self.width + col) as usize }` -/
def get_index (u : Universe) (row col : Nat) : Nat :=
  row * u.width + col

/-- `fn live_neighbor_count(&self, row, col) -> u8`: the 8 wrap-around
neighbour reads, in source order (nw, n, ne, w, e, sw, s, se).  Reads go
through the panic-free `Index` path, so the function is total. -/
def live_neighbor_count (u : Universe) (row col : Nat) : Nat :=
  let north := if row = 0 then u.height - 1 else row - 1
  let south := if row = u.height - 1 then 0 else row + 1
  let west := if col = 0 then u.width - 1 else col - 1
  let east := if col = u.width - 1 then 0 else col + 1
  (fbsGet u.cells (u.get_index north west)).toNat
    + (fbsGet u.cells (u.get_index north col)).toNat
    + (fbsGet u.cells (u.get_index north east)).toNat
    + (fbsGet u.cells (u.get_index row west)).toNat
    + (fbsGet u.cells (u.get_index row east)).toNat
    + (fbsGet u.cells (u.get_index south west)).toNat
    + (fbsGet u.cells (u.get_index south col)).toNat
    + (fbsGet u.cells (u.get_index south east)).toNat

/-- `pub fn set_cells(&mut self, cells: &[(u32, u32)], state: bool)`:
writes `state` to each listed coordinate in list order; each write is a
`FixedBitSet::set`, which panics (`none`) on an out-of-range flat index. -/
def set_cells (u : Universe) (cs : List (Nat × Nat)) (state : Bool) :
    Option Universe :=
  match cs with
  | [] => some u
  | (row, col) :: rest =>
    match fbsSet u.cells (u.get_index row col) state with
    | none => none
    | some cells' => set_cells { u with cells := cells' } rest state

/-- `pub fn set_cells_alive(&mut self, cells)` -/
def set_cells_alive (u : Universe) (cs : List (Nat × Nat)) : Option Universe :=
  u.set_cells cs true

/-- `pub fn set_cells_dead(&mut self, cells)` -/
def set_cells_dead (u : Universe) (cs : List (Nat × Nat)) : Option Universe :=
  u.set_cells cs false

/-- `pub fn set_cells_all(&mut self, state: bool)`: reallocates the bit
array at `width * height` and sets every bit to `state`.  Every index of
the loop is in range of the fresh array, so no write can panic. -/
def set_cells_all (u : Universe) (state : Bool) : Universe :=
  let size := u.width * u.height
  let cells :=
    (List.range size).foldl (fun bits i => bits.set i state)
      (fbsWithCapacity size)
  { u with cells := cells }

/-- `pub fn set_cells_alive_all(&mut self)` -/
def set_cells_alive_all (u : Universe) : Universe :=
  u.set_cells_all true

/-- `pub fn set_cells_dead_all(&mut self)` -/
def set_cells_dead_all (u : Universe) : Universe :=
  u.set_cells_all false

/-- `pub fn new(width, height) -> Universe`: the `js_sys::Math::random()`
draws are injected as `rand : Nat → Bool` (`rand i` = "draw for bit `i`
was `< 0.5`").  Every loop index is in range of the fresh array. -/
def new (width height : Nat) (rand : Nat → Bool) : Universe :=
  let size := width * height
  let cells :=
    (List.range size).foldl (fun bits i => bits.set i (rand i))
      (fbsWithCapacity size)
  { width := width, height := height, cells := cells }

/-- `pub fn set_width(&mut self, width)` -/
def set_width (u : Universe) (width : Nat) : Universe :=
  { u with width := width }.set_cells_dead_all

/-- `pub fn set_height(&mut self, height)` -/
def set_height (u : Universe) (height : Nat) : Universe :=
  { u with height := height }.set_cells_dead_all

/-- `pub fn toggle_cell(&mut self, row, col)`: reads the bit (panic-free
read) and writes its negation (`set` panics out of range). -/
def toggle_cell (u : Universe) (row col : Nat) : Option Universe :=
  let idx := u.get_index row col
  match fbsSet u.cells idx (!(fbsGet u.cells idx)) with
  | none => none
  | some cells' => some { u with cells := cells' }

/-- `pub fn set_cell(&mut self, row, col, state)` -/
def set_cell (u : Universe) (row col : Nat) (state : Bool) :
    Option Universe :=
  match fbsSet u.cells (u.get_index row col) state with
  | none => none
  | some cells' => some { u with cells := cells' }

/-- `pub fn set_cell_alive(&mut self, row, col)` -/
def set_cell_alive (u : Universe) (row col : Nat) : Option Universe :=
  u.set_cell row col true

/-- `pub fn set_cell_dead(&mut self, row, col)` -/
def set_cell_dead (u : Universe) (row col : Nat) : Option Universe :=
  u.set_cell row col false

/-- The `match (cell, live_neighbors)` of `tick`, arm by arm in source
order: `(true, x) if x < 2`, `(true, 2) | (true, 3)`, `(true, x) if x > 3`,
`(false, 3)`, `(otherwise, _) => otherwise`. -/
def tickNext (cell : Bool) (live_neighbors : Nat) : Bool :=
  if cell = true ∧ live_neighbors < 2 then false
  else if cell = true ∧ (live_neighbors = 2 ∨ live_neighbors = 3) then true
  else if cell = true ∧ live_neighbors > 3 then false
  else if cell = false ∧ live_neighbors = 3 then true
  else cell

/-- The body of `tick`'s double loop for one cell: reads `cell` and
`live_neighbors` from the pre-tick `cells` only. -/
def tickCell (u : Universe) (row col : Nat) : Bool :=
  tickNext (fbsGet u.cells (u.get_index row col))
    (u.live_neighbor_count row col)

/-- `pub fn tick(&mut self)`: `next` starts as a clone of `cells`; the
double loop writes `next[get_index(row, col)]` for every `row < height`,
`col < width`, reading only the pre-tick `u`; finally `cells = next`.
Whenever `cells.length = width * height` every write is in range, so the
Rust `set` cannot panic and `List.set` models it exactly. -/
def tick (u : Universe) : Universe :=
  let next :=
    (List.range u.height).foldl
      (fun acc row =>
        (List.range u.width).foldl
          (fun acc2 col => acc2.set (u.get_index row col) (u.tickCell row col))
          acc)
      u.cells
  { u with cells := next }

/-- The `impl fmt::Display` of `src/lib.rs` (and `pub fn render`, which is
`self.to_string()`).  NOTE: the source iterates `row in 0..self.width` and
`col in 0..self.height`, and both character literals on line 37 of
`src/lib.rs` are the same byte `'?'` (alive and dead draw alike). -/
def render (u : Universe) : String :=
  (List.range u.width).foldl
    (fun s row =>
      ((List.range u.height).foldl
        (fun s2 col =>
          s2.push (if fbsGet u.cells (u.get_index row col) then '?' else '?'))
        s).push '\n')
    ""

/-- The length invariant of the spec: `cells.length == width * height`. -/
def Inv (u : Universe) : Prop :=
  u.cells.length = u.width * u.height

instance (u : Universe) : Decidable u.Inv := by
  unfold Inv; infer_instance

end Universe

/-- The canonical Game of Life rule exactly as the specification words it
(for comparing against the code's `tick`): alive with `n < 2` dies, alive
with `n ∈ {2,3}` survives, alive with `n > 3` dies, dead with `n = 3` is
born, every other combination is dead. -/
def specRule (alive : Bool) (n : Nat) : Bool :=
  if alive then
    if n < 2 then false
    else if n = 2 ∨ n = 3 then true
    else false
  else if n = 3 then true else false

/-! ## Generic lemmas about `foldl`-driven `List.set` loops -/

theorem foldl_set_length (g : Nat → Nat) (f : Nat → Bool) :
    ∀ (xs : List Nat) (l : List Bool),
      (xs.foldl (fun a x => a.set (g x) (f x)) l).length = l.length := by
  intro xs
  induction xs with
  | nil => intro l; rfl
  | cons x xs ih =>
    intro l
    simpa [List.foldl_cons] using ih (l.set (g x) (f x))

theorem foldl_set_getElem?_ne (g : Nat → Nat) (f : Nat → Bool) :
    ∀ (xs : List Nat) (l : List Bool) (j : Nat),
      (∀ x ∈ xs, j ≠ g x) →
      (xs.foldl (fun a x => a.set (g x) (f x)) l)[j]? = l[j]? := by
  intro xs
  induction xs with
  | nil => intro l j _; rfl
  | cons x xs ih =>
    intro l j hj
    have hx : j ≠ g x := hj x (List.mem_cons_self x xs)
    have hrest : ∀ y ∈ xs, j ≠ g y := fun y hy => hj y (List.mem_cons_of_mem x hy)
    calc (List.foldl (fun a x => a.set (g x) (f x)) (l.set (g x) (f x)) xs)[j]?
        = (l.set (g x) (f x))[j]? := ih (l.set (g x) (f x)) j hrest
      _ = l[j]? := List.getElem?_set_ne (fun h => hx h.symm)

theorem range_foldl_set_getElem?_eq (g : Nat → Nat) (f : Nat → Bool)
    (hg : ∀ x y, g x = g y → x = y) :
    ∀ (n : Nat) (l : List Bool) (c : Nat), c < n → g c < l.length →
      ((List.range n).foldl (fun a x => a.set (g x) (f x)) l)[g c]? = some (f c) := by
  intro n
  induction n with
  | zero => intro l c hc; omega
  | succ n ih =>
    intro l c hc hlt
    rw [List.range_succ, List.foldl_append]
    rcases Nat.lt_succ_iff_lt_or_eq.mp hc with hlt' | heq
    · have hne : g n ≠ g c := fun h => absurd (hg n c h) (by omega)
      calc ((List.foldl (fun a x => a.set (g x) (f x)) l (List.range n)).set (g n) (f n))[g c]?
          = (List.foldl (fun a x => a.set (g x) (f x)) l (List.range n))[g c]? :=
            List.getElem?_set_ne hne
        _ = some (f c) := ih l c hlt' hlt
    · subst heq
      have hlen : g c < (List.foldl (fun a x => a.set (g x) (f x)) l (List.range c)).length := by
        rw [foldl_set_length]; exact hlt
      simpa using List.getElem?_set_self hlen

theorem range_foldl_set_const (n : Nat) (s : Bool) (l : List Bool)
    (hlen : l.length = n) :
    (List.range n).foldl (fun bits i => bits.set i s) l = List.replicate n s := by
  apply List.ext_getElem?
  intro j
  have hshape :
      (List.range n).foldl (fun bits i => bits.set i s) l =
        (List.range n).foldl
          (fun a x => a.set ((fun i => i) x) ((fun _ => s) x)) l := rfl
  rw [hshape]
  by_cases hj : j < n
  · rw [range_foldl_set_getElem?_eq (fun i => i) (fun _ => s) (fun _ _ h => h) n l j hj
      (by show j < l.length; omega)]
    rw [List.getElem?_replicate_of_lt hj]
  · rw [foldl_set_getElem?_ne (fun i => i) (fun _ => s) (List.range n) l j
      (by intro x hx; rw [List.mem_range] at hx; show j ≠ x; omega)]
    rw [List.getElem?_eq_none (by omega), List.getElem?_replicate, if_neg hj]

/-! ## Characterisation of the `tick` double loop -/

namespace Universe

/-- The inner (column) loop of `tick` for one row, as a function of the
accumulator. -/
def rowFold (u : Universe) (row : Nat) (l : List Bool) : List Bool :=
  (List.range u.width).foldl
    (fun acc2 col => acc2.set (u.get_index row col) (u.tickCell row col)) l

/-- The outer (row) loop of `tick`, cut off after `m` rows. -/
def tickFold (u : Universe) (m : Nat) (l : List Bool) : List Bool :=
  (List.range m).foldl
    (fun acc row =>
      (List.range u.width).foldl
        (fun acc2 col => acc2.set (u.get_index row col) (u.tickCell row col))
        acc)
    l

theorem tick_cells_eq (u : Universe) :
    u.tick.cells = tickFold u u.height u.cells := rfl

theorem tickFold_succ (u : Universe) (m : Nat) (l : List Bool) :
    tickFold u (m + 1) l = rowFold u m (tickFold u m l) := by
  unfold tickFold rowFold
  rw [List.range_succ, List.foldl_append]
  rfl

theorem rowFold_length (u : Universe) (row : Nat) (l : List Bool) :
    (rowFold u row l).length = l.length := by
  have hshape : rowFold u row l =
      (List.range u.width).foldl
        (fun a x => a.set ((fun col => u.get_index row col) x)
          ((fun col => u.tickCell row col) x)) l := rfl
  rw [hshape,
    foldl_set_length (fun col => u.get_index row col)
      (fun col => u.tickCell row col)]

theorem rowFold_getElem?_ne (u : Universe) (row : Nat) (l : List Bool)
    (j : Nat) (hj : ∀ c, c < u.width → j ≠ u.get_index row c) :
    (rowFold u row l)[j]? = l[j]? := by
  have hshape : rowFold u row l =
      (List.range u.width).foldl
        (fun a x => a.set ((fun col => u.get_index row col) x)
          ((fun col => u.tickCell row col) x)) l := rfl
  rw [hshape,
    foldl_set_getElem?_ne (fun col => u.get_index row col)
      (fun col => u.tickCell row col) (List.range u.width) l j
      (by intro x hx; rw [List.mem_range] at hx
          show j ≠ u.get_index row x
          exact hj x hx)]

theorem rowFold_getElem?_eq (u : Universe) (row col : Nat) (l : List Bool)
    (hc : col < u.width) (hlt : u.get_index row col < l.length) :
    (rowFold u row l)[u.get_index row col]? = some (u.tickCell row col) := by
  have hshape : rowFold u row l =
      (List.range u.width).foldl
        (fun a x => a.set ((fun col => u.get_index row col) x)
          ((fun col => u.tickCell row col) x)) l := rfl
  rw [hshape]
  exact range_foldl_set_getElem?_eq (fun col => u.get_index row col)
    (fun col => u.tickCell row col)
    (by intro x y h; simp only [get_index] at h; omega)
    u.width l col hc hlt

theorem tickFold_length (u : Universe) :
    ∀ (m : Nat) (l : List Bool), (tickFold u m l).length = l.length := by
  intro m
  induction m with
  | zero => intro l; rfl
  | succ m ih =>
    intro l
    rw [tickFold_succ, rowFold_length, ih]

theorem tickFold_getElem? (u : Universe) :
    ∀ (m : Nat) (l : List Bool), l.length = u.width * u.height →
      m ≤ u.height →
      (∀ j, m * u.width ≤ j → (tickFold u m l)[j]? = l[j]?)
      ∧ (∀ row col, row < m → col < u.width →
          (tickFold u m l)[u.get_index row col]? = some (u.tickCell row col)) := by
  intro m
  induction m with
  | zero =>
    intro l _ _
    exact ⟨fun j _ => rfl, fun row col hr _ => absurd hr (Nat.not_lt_zero row)⟩
  | succ m ih =>
    intro l hlen hm
    obtain ⟨ih1, ih2⟩ := ih l hlen (by omega)
    have hmw : (m + 1) * u.width ≤ u.height * u.width :=
      mul_le_mul_right' hm u.width
    have hcomm : u.height * u.width = u.width * u.height := Nat.mul_comm _ _
    constructor
    · intro j hj
      rw [Nat.succ_mul] at hj
      rw [tickFold_succ]
      rw [rowFold_getElem?_ne u m _ j
        (by intro c hc
            simp only [get_index]
            omega)]
      exact ih1 j (by omega)
    · intro row col hr hc
      rw [tickFold_succ]
      rcases Nat.lt_succ_iff_lt_or_eq.mp hr with hlt | heq
      · rw [rowFold_getElem?_ne u m _ (u.get_index row col)
          (by intro c hc'
              simp only [get_index]
              have h1 : row * u.width + col < (row + 1) * u.width := by
                rw [Nat.succ_mul]; omega
              have h2 : (row + 1) * u.width ≤ m * u.width :=
                mul_le_mul_right' (by omega) u.width
              omega)]
        exact ih2 row col hlt hc
      · subst heq
        exact rowFold_getElem?_eq u row col _ hc
          (by rw [tickFold_length, hlen]
              have h1 : row * u.width + col < (row + 1) * u.width := by
                rw [Nat.succ_mul]; omega
              have h2 : (row + 1) * u.width ≤ u.height * u.width :=
                mul_le_mul_right' hm u.width
              simp only [get_index]
              omega)

/-- The single-cell reading of `tick`: cell `(row, col)` of the post-tick
grid is the rule applied to the pre-tick cell and neighbour count. -/
theorem tick_getElem? (u : Universe) (hInv : u.Inv) (row col : Nat)
    (hr : row < u.height) (hc : col < u.width) :
    u.tick.cells[u.get_index row col]? = some (u.tickCell row col) := by
  rw [tick_cells_eq]
  exact (tickFold_getElem? u u.height u.cells hInv (le_refl _)).2 row col hr hc

end Universe

/-- The `match` of `tick` agrees with the spec's 18-case rule table. -/
theorem tickNext_eq_specRule (b : Bool) (n : Nat) :
    Universe.tickNext b n = specRule b n := by
  cases b
  all_goals unfold Universe.tickNext specRule
  all_goals split_ifs <;> simp_all
  all_goals omega

/-- A 5×5 universe holding a horizontal blinker in row 2. -/
def exBlinker : Universe :=
  { width := 5, height := 5,
    cells := [false, false, false, false, false,
              false, false, false, false, false,
              false, true, true, true, false,
              false, false, false, false, false,
              false, false, false, false, false] }

/-- C1: after one `tick`, every in-range cell's state equals the canonical
rule applied to its pre-tick state and its pre-tick live neighbour count
(the count reads the pre-tick grid only: the right-hand side mentions only
the pre-tick universe `u`). -/
theorem tick_follows_canonical_rule (u : Universe) (hInv : u.Inv)
    (row col : Nat) (hr : row < u.height) (hc : col < u.width) :
    fbsGet u.tick.cells (u.get_index row col) =
      specRule (fbsGet u.cells (u.get_index row col))
        (u.live_neighbor_count row col) := by
  have h := u.tick_getElem? hInv row col hr hc
  rw [fbsGet, List.getD_eq_getElem?_getD, h]
  simp only [Option.getD_some, Universe.tickCell, tickNext_eq_specRule, fbsGet]

theorem tick_follows_canonical_rule_witness :
    exBlinker.Inv ∧
      fbsGet exBlinker.tick.cells (exBlinker.get_index 1 2) =
        specRule (fbsGet exBlinker.cells (exBlinker.get_index 1 2))
          (exBlinker.live_neighbor_count 1 2) :=
  ⟨by decide,
    tick_follows_canonical_rule exBlinker (by decide) 1 2 (by decide) (by decide)⟩

/-- C7: on a 1×1 universe the sole cell is its own neighbour 8 times, so
the count is 8 when it is alive and 0 when dead; `tick` is total (no
crash) and follows the rule table: a live sole cell dies of
overpopulation, a dead one stays dead. -/
theorem one_by_one_degenerate :
    (Universe.mk 1 1 [true]).live_neighbor_count 0 0 = 8 ∧
    (Universe.mk 1 1 [false]).live_neighbor_count 0 0 = 0 ∧
    (Universe.mk 1 1 [true]).tick = Universe.mk 1 1 [false] ∧
    (Universe.mk 1 1 [false]).tick = Universe.mk 1 1 [false] := by decide

/-- C10: `tick` never changes `width` or `height`; it only replaces
`cells`. -/
theorem tick_preserves_dimensions (u : Universe) :
    u.tick.width = u.width ∧ u.tick.height = u.height :=
  ⟨rfl, rfl⟩

/-- `live_neighbor_count` with its four `let`-bound wrap coordinates
written out (pure unfolding). -/
theorem live_neighbor_count_eq (u : Universe) (row col : Nat) :
    u.live_neighbor_count row col =
      (fbsGet u.cells (u.get_index (if row = 0 then u.height - 1 else row - 1)
        (if col = 0 then u.width - 1 else col - 1))).toNat
      + (fbsGet u.cells (u.get_index (if row = 0 then u.height - 1 else row - 1)
          col)).toNat
      + (fbsGet u.cells (u.get_index (if row = 0 then u.height - 1 else row - 1)
          (if col = u.width - 1 then 0 else col + 1))).toNat
      + (fbsGet u.cells (u.get_index row
          (if col = 0 then u.width - 1 else col - 1))).toNat
      + (fbsGet u.cells (u.get_index row
          (if col = u.width - 1 then 0 else col + 1))).toNat
      + (fbsGet u.cells (u.get_index (if row = u.height - 1 then 0 else row + 1)
          (if col = 0 then u.width - 1 else col - 1))).toNat
      + (fbsGet u.cells (u.get_index (if row = u.height - 1 then 0 else row + 1)
          col)).toNat
      + (fbsGet u.cells (u.get_index (if row = u.height - 1 then 0 else row + 1)
          (if col = u.width - 1 then 0 else col + 1))).toNat := rfl

/-- C2: for in-range coordinates on a non-empty grid, the neighbour count
is the sum of the live states of the 8 toroidally wrapped neighbours
(`row±1`, `col±1` modulo `height` and `width`), it lies in `[0, 8]`, and
for the corner `(0,0)` on a grid with `width ≥ 3` and `height ≥ 3` the
counted neighbours are exactly `(H−1,W−1)`, `(H−1,0)`, `(H−1,1)`,
`(0,W−1)`, `(0,1)`, `(1,W−1)`, `(1,0)`, `(1,1)`.  (The function is pure in
the embedding, matching "never mutates state".) -/
theorem live_neighbor_count_toroidal (u : Universe)
    (hw : 1 ≤ u.width) (hh : 1 ≤ u.height)
    (row col : Nat) (hr : row < u.height) (hc : col < u.width) :
    (u.live_neighbor_count row col =
      (fbsGet u.cells (u.get_index ((row + u.height - 1) % u.height)
        ((col + u.width - 1) % u.width))).toNat
      + (fbsGet u.cells (u.get_index ((row + u.height - 1) % u.height)
          col)).toNat
      + (fbsGet u.cells (u.get_index ((row + u.height - 1) % u.height)
          ((col + 1) % u.width))).toNat
      + (fbsGet u.cells (u.get_index row ((col + u.width - 1) % u.width))).toNat
      + (fbsGet u.cells (u.get_index row ((col + 1) % u.width))).toNat
      + (fbsGet u.cells (u.get_index ((row + 1) % u.height)
          ((col + u.width - 1) % u.width))).toNat
      + (fbsGet u.cells (u.get_index ((row + 1) % u.height) col)).toNat
      + (fbsGet u.cells (u.get_index ((row + 1) % u.height)
          ((col + 1) % u.width))).toNat)
    ∧ u.live_neighbor_count row col ≤ 8
    ∧ (3 ≤ u.width → 3 ≤ u.height →
        u.live_neighbor_count 0 0 =
          (fbsGet u.cells (u.get_index (u.height - 1) (u.width - 1))).toNat
          + (fbsGet u.cells (u.get_index (u.height - 1) 0)).toNat
          + (fbsGet u.cells (u.get_index (u.height - 1) 1)).toNat
          + (fbsGet u.cells (u.get_index 0 (u.width - 1))).toNat
          + (fbsGet u.cells (u.get_index 0 1)).toNat
          + (fbsGet u.cells (u.get_index 1 (u.width - 1))).toNat
          + (fbsGet u.cells (u.get_index 1 0)).toNat
          + (fbsGet u.cells (u.get_index 1 1)).toNat) := by
  have hnorth : (if row = 0 then u.height - 1 else row - 1) =
      (row + u.height - 1) % u.height := by
    by_cases h0 : row = 0
    · subst h0
      rw [if_pos rfl]
      have e : 0 + u.height - 1 = u.height - 1 := by omega
      rw [e, Nat.mod_eq_of_lt (by omega)]
    · rw [if_neg h0]
      have e : row + u.height - 1 = row - 1 + u.height := by omega
      rw [e, Nat.add_mod_right, Nat.mod_eq_of_lt (by omega)]
  have hsouth : (if row = u.height - 1 then 0 else row + 1) =
      (row + 1) % u.height := by
    by_cases h0 : row = u.height - 1
    · rw [if_pos h0]
      have e : row + 1 = u.height := by omega
      rw [e, Nat.mod_self]
    · rw [if_neg h0, Nat.mod_eq_of_lt (by omega)]
  have hwest : (if col = 0 then u.width - 1 else col - 1) =
      (col + u.width - 1) % u.width := by
    by_cases h0 : col = 0
    · subst h0
      rw [if_pos rfl]
      have e : 0 + u.width - 1 = u.width - 1 := by omega
      rw [e, Nat.mod_eq_of_lt (by omega)]
    · rw [if_neg h0]
      have e : col + u.width - 1 = col - 1 + u.width := by omega
      rw [e, Nat.add_mod_right, Nat.mod_eq_of_lt (by omega)]
  have heast : (if col = u.width - 1 then 0 else col + 1) =
      (col + 1) % u.width := by
    by_cases h0 : col = u.width - 1
    · rw [if_pos h0]
      have e : col + 1 = u.width := by omega
      rw [e, Nat.mod_self]
    · rw [if_neg h0, Nat.mod_eq_of_lt (by omega)]
  refine ⟨?_, ?_, ?_⟩
  · rw [live_neighbor_count_eq, hnorth, hsouth, hwest, heast]
  · rw [live_neighbor_count_eq]
    have t1 := Bool.toNat_le (fbsGet u.cells
      (u.get_index (if row = 0 then u.height - 1 else row - 1)
        (if col = 0 then u.width - 1 else col - 1)))
    have t2 := Bool.toNat_le (fbsGet u.cells
      (u.get_index (if row = 0 then u.height - 1 else row - 1) col))
    have t3 := Bool.toNat_le (fbsGet u.cells
      (u.get_index (if row = 0 then u.height - 1 else row - 1)
        (if col = u.width - 1 then 0 else col + 1)))
    have t4 := Bool.toNat_le (fbsGet u.cells
      (u.get_index row (if col = 0 then u.width - 1 else col - 1)))
    have t5 := Bool.toNat_le (fbsGet u.cells
      (u.get_index row (if col = u.width - 1 then 0 else col + 1)))
    have t6 := Bool.toNat_le (fbsGet u.cells
      (u.get_index (if row = u.height - 1 then 0 else row + 1)
        (if col = 0 then u.width - 1 else col - 1)))
    have t7 := Bool.toNat_le (fbsGet u.cells
      (u.get_index (if row = u.height - 1 then 0 else row + 1) col))
    have t8 := Bool.toNat_le (fbsGet u.cells
      (u.get_index (if row = u.height - 1 then 0 else row + 1)
        (if col = u.width - 1 then 0 else col + 1)))
    omega
  · intro hw3 hh3
    rw [live_neighbor_count_eq]
    have e1 : (if (0 : Nat) = 0 then u.height - 1 else 0 - 1) = u.height - 1 :=
      if_pos rfl
    have e2 : (if (0 : Nat) = 0 then u.width - 1 else 0 - 1) = u.width - 1 :=
      if_pos rfl
    have e3 : (if (0 : Nat) = u.height - 1 then 0 else 0 + 1) = 1 := by
      rw [if_neg (by omega)]
    have e4 : (if (0 : Nat) = u.width - 1 then 0 else 0 + 1) = 1 := by
      rw [if_neg (by omega)]
    rw [e1, e2, e3, e4]

theorem live_neighbor_count_toroidal_witness :
    1 ≤ exBlinker.width ∧ 1 ≤ exBlinker.height ∧
      exBlinker.live_neighbor_count 2 1 ≤ 8 :=
  ⟨by decide, by decide,
    (live_neighbor_count_toroidal exBlinker (by decide) (by decide) 2 1
      (by decide) (by decide)).2.1⟩

/-- Width-1, height-2 universe whose first cell is alive. -/
def exTall : Universe := { width := 1, height := 2, cells := [true, false] }

/-- C3 (code bug): on `exTall` (`width = 1`, `height = 2`, cells
`[alive, dead]`) the `Display` loops of `src/lib.rs` iterate `row` up to
`width` and `col` up to `height` (swapped), so `render` emits `width = 1`
line of `height = 2` glyphs — not `height` lines of `width` glyphs — and
both glyph literals of line 37 are the same character `'?'`, so an alive
and a dead cell draw identically. -/
theorem render_swaps_width_and_height :
    exTall.render = "??\n" ∧
    exTall.render.data.count '\n' = 1 ∧
    exTall.height = 2 ∧
    exTall.cells = [true, false] := by decide

/-- 3×3 all-dead universe. -/
def exSquare : Universe :=
  { width := 3, height := 3, cells := List.replicate 9 false }

/-- C4 counterexample: `set_cell` on the 3×3 universe with `col = 5 ≥
width = 3` does not fail: it returns `some` and silently writes the
different in-range cell `(2,2)` (flat index `1*3+5 = 8`). -/
theorem set_cell_out_of_range_silent_write :
    exSquare.set_cell 1 5 true =
      some { width := 3, height := 3,
             cells := [false, false, false, false,
                       false, false, false, false, true] } ∧
    (exSquare.set_cell 1 5 true).map
      (fun u' => fbsGet u'.cells (u'.get_index 2 2)) = some true := by decide

theorem set_cell_eq (u : Universe) (row col : Nat) (state : Bool) :
    u.set_cell row col state =
      if u.get_index row col < u.cells.length then
        some { u with cells := u.cells.set (u.get_index row col) state }
      else none := by
  unfold Universe.set_cell fbsSet
  split_ifs <;> rfl

theorem toggle_cell_eq (u : Universe) (row col : Nat) :
    u.toggle_cell row col =
      if u.get_index row col < u.cells.length then
        some { u with
               cells := (u.cells.set (u.get_index row col)
                 (!(fbsGet u.cells (u.get_index row col)))) }
      else none := by
  by_cases h : u.get_index row col < u.cells.length <;>
    simp [Universe.toggle_cell, fbsSet, h]

/-- C4 amended: for `row ≥ height` or `col ≥ width`, each single-cell
mutator panics if and only if the flat index `row*width + col` is at least
`width*height`; a `row ≥ height` always panics, but a `col ≥ width` whose
flat index is still below `width*height` does **not** fail — it silently
writes the different in-range cell at that flat index. -/
theorem out_of_range_write_behavior (u : Universe) (hInv : u.Inv)
    (row col : Nat) (state : Bool)
    (_hout : u.height ≤ row ∨ u.width ≤ col) :
    (u.set_cell row col state = none ↔
      u.width * u.height ≤ u.get_index row col) ∧
    (u.set_cell_alive row col = none ↔
      u.width * u.height ≤ u.get_index row col) ∧
    (u.set_cell_dead row col = none ↔
      u.width * u.height ≤ u.get_index row col) ∧
    (u.toggle_cell row col = none ↔
      u.width * u.height ≤ u.get_index row col) ∧
    (u.height ≤ row → u.set_cell row col state = none) ∧
    (u.get_index row col < u.width * u.height →
      u.set_cell row col state =
        some { u with cells := u.cells.set (u.get_index row col) state }) := by
  have hlen : u.cells.length = u.width * u.height := hInv
  have hset : ∀ s : Bool, (u.set_cell row col s = none ↔
      u.width * u.height ≤ u.get_index row col) := by
    intro s
    rw [set_cell_eq, hlen]
    split_ifs with h
    · exact iff_of_false (by simp) (by omega)
    · exact iff_of_true rfl (by omega)
  refine ⟨hset state, hset true, hset false, ?_, ?_, ?_⟩
  · rw [toggle_cell_eq, hlen]
    split_ifs with h
    · exact iff_of_false (by simp) (by omega)
    · exact iff_of_true rfl (by omega)
  · intro hrow
    rw [hset state]
    have h1 : u.height * u.width ≤ row * u.width := mul_le_mul_right' hrow u.width
    have h2 : u.height * u.width = u.width * u.height := Nat.mul_comm _ _
    simp only [Universe.get_index]
    omega
  · intro hlt
    rw [set_cell_eq, hlen, if_pos hlt]

theorem out_of_range_write_behavior_witness :
    exSquare.Inv ∧ exSquare.width ≤ 5 ∧
      ((exSquare.set_cell 1 5 true = none ↔
        exSquare.width * exSquare.height ≤ exSquare.get_index 1 5) ∧
      (exSquare.set_cell_alive 1 5 = none ↔
        exSquare.width * exSquare.height ≤ exSquare.get_index 1 5) ∧
      (exSquare.set_cell_dead 1 5 = none ↔
        exSquare.width * exSquare.height ≤ exSquare.get_index 1 5) ∧
      (exSquare.toggle_cell 1 5 = none ↔
        exSquare.width * exSquare.height ≤ exSquare.get_index 1 5) ∧
      (exSquare.height ≤ 1 → exSquare.set_cell 1 5 true = none) ∧
      (exSquare.get_index 1 5 < exSquare.width * exSquare.height →
        exSquare.set_cell 1 5 true =
          some { exSquare with
                 cells := exSquare.cells.set (exSquare.get_index 1 5) true })) :=
  ⟨by decide, by decide,
    out_of_range_write_behavior exSquare (by decide) 1 5 true (Or.inr (by decide))⟩

/-- In-range coordinates give an in-range flat index (under the length
invariant). -/
theorem get_index_lt (u : Universe) (hInv : u.Inv) (row col : Nat)
    (hr : row < u.height) (hc : col < u.width) :
    u.get_index row col < u.cells.length := by
  have h1 : row * u.width + col < (row + 1) * u.width := by
    rw [Nat.succ_mul]; omega
  have h2 : (row + 1) * u.width ≤ u.height * u.width :=
    mul_le_mul_right' (by omega) u.width
  have h3 : u.height * u.width = u.width * u.height := Nat.mul_comm _ _
  have hlen : u.cells.length = u.width * u.height := hInv
  simp only [Universe.get_index]
  omega

/-- The flat index map is injective on in-range column coordinates. -/
theorem get_index_inj (w r c r' c' : Nat) (hc : c < w) (hc' : c' < w)
    (h : r * w + c = r' * w + c') : r = r' ∧ c = c' := by
  have hr : r = r' := by
    by_contra hne
    rcases Nat.lt_or_ge r r' with hlt | hge
    · have h1 : r * w + c < (r + 1) * w := by rw [Nat.succ_mul]; omega
      have h2 : (r + 1) * w ≤ r' * w := mul_le_mul_right' (by omega) w
      omega
    · have hlt' : r' < r := by omega
      have h1 : r' * w + c' < (r' + 1) * w := by rw [Nat.succ_mul]; omega
      have h2 : (r' + 1) * w ≤ r * w := mul_le_mul_right' (by omega) w
      omega
  subst hr
  exact ⟨rfl, by omega⟩

theorem fbsSet_some {bits : List Bool} {i : Nat} {b : Bool} {out : List Bool}
    (h : fbsSet bits i b = some out) :
    out = bits.set i b ∧ i < bits.length := by
  unfold fbsSet at h
  split_ifs at h with h'
  · injection h with e
    exact ⟨e.symm, h'⟩

/-- Writing back the bit a position already holds is the identity. -/
theorem set_getD_self (l : List Bool) (i : Nat) (h : i < l.length) :
    l.set i (l.getD i false) = l := by
  apply List.ext_getElem?
  intro j
  by_cases hj : j = i
  · subst hj
    rw [List.getElem?_set_self h, List.getD_eq_getElem?_getD,
      List.getElem?_eq_getElem h]
    rfl
  · exact List.getElem?_set_ne (fun e => hj e.symm)

/-- Strengthened induction for `set_cells` on in-range coordinate lists:
it succeeds, preserves dimensions and length, ends every listed
coordinate at `state`, and leaves every other flat index untouched. -/
theorem set_cells_spec (state : Bool) :
    ∀ (cs : List (Nat × Nat)) (u : Universe), u.Inv →
      (∀ p ∈ cs, p.1 < u.height ∧ p.2 < u.width) →
      ∃ u', u.set_cells cs state = some u' ∧
        u'.width = u.width ∧ u'.height = u.height ∧
        u'.cells.length = u.cells.length ∧
        (∀ p ∈ cs, fbsGet u'.cells (p.1 * u.width + p.2) = state) ∧
        (∀ j, (∀ p ∈ cs, j ≠ p.1 * u.width + p.2) →
          u'.cells[j]? = u.cells[j]?) := by
  intro cs
  induction cs with
  | nil =>
    intro u hInv hin
    exact ⟨u, rfl, rfl, rfl, rfl, by simp, fun j _ => rfl⟩
  | cons p rest ih =>
    intro u hInv hin
    obtain ⟨row, col⟩ := p
    have hrc := hin (row, col) (List.mem_cons_self _ _)
    have hidx : u.get_index row col < u.cells.length :=
      get_index_lt u hInv row col hrc.1 hrc.2
    have hstep : u.set_cells ((row, col) :: rest) state =
        Universe.set_cells
          { u with cells := u.cells.set (u.get_index row col) state }
          rest state := by
      show (match fbsSet u.cells (u.get_index row col) state with
            | none => none
            | some cells' =>
              Universe.set_cells { u with cells := cells' } rest state) = _
      rw [fbsSet, if_pos hidx]
    have hInv1 :
        Universe.Inv { u with cells := u.cells.set (u.get_index row col) state } := by
      show (u.cells.set (u.get_index row col) state).length = u.width * u.height
      rw [List.length_set]; exact hInv
    have hin1 : ∀ q ∈ rest,
        q.1 < ({ u with cells := u.cells.set (u.get_index row col) state } : Universe).height ∧
        q.2 < ({ u with cells := u.cells.set (u.get_index row col) state } : Universe).width := by
      intro q hq
      exact hin q (List.mem_cons_of_mem _ hq)
    obtain ⟨u', h1, h2, h3, h4, h5, h6⟩ :=
      ih { u with cells := u.cells.set (u.get_index row col) state } hInv1 hin1
    refine ⟨u', by rw [hstep]; exact h1, h2, h3,
      by rw [h4, List.length_set], ?_, ?_⟩
    · intro q hq
      rcases List.mem_cons.mp hq with hq0 | hq0
      · subst hq0
        by_cases hmem : (row, col) ∈ rest
        · exact h5 (row, col) hmem
        · have havoid : ∀ q ∈ rest, row * u.width + col ≠ q.1 * u.width + q.2 := by
            intro q hq' heq
            obtain ⟨hq1, hq2⟩ := hin q (List.mem_cons_of_mem _ hq')
            obtain ⟨e1, e2⟩ :=
              get_index_inj u.width row col q.1 q.2 hrc.2 hq2 heq
            have hpq : (row, col) = q := by
              rw [e1, e2]
            exact hmem (hpq ▸ hq')
          have hkeep := h6 (row * u.width + col) havoid
          rw [fbsGet, List.getD_eq_getElem?_getD, hkeep]
          have : (u.cells.set (u.get_index row col) state)[row * u.width + col]? =
              some state := List.getElem?_set_self hidx
          rw [this]
          rfl
      · exact h5 q hq0
    · intro j hj
      have hkeep := h6 j (fun q hq => hj q (List.mem_cons_of_mem _ hq))
      rw [hkeep]
      exact List.getElem?_set_ne
        (fun e => hj (row, col) (List.mem_cons_self _ _) e.symm)

/-- C8: `set_cells` writes `state` to each listed in-range coordinate in
list order; duplicated coordinates end at the value of their last
occurrence (which is `state`, the single value the call writes), and
every coordinate not in the list is unchanged. -/
theorem set_cells_last_write_wins (u : Universe) (hInv : u.Inv)
    (cs : List (Nat × Nat)) (state : Bool)
    (hin : ∀ p ∈ cs, p.1 < u.height ∧ p.2 < u.width) :
    ∃ u', u.set_cells cs state = some u' ∧
      u'.width = u.width ∧ u'.height = u.height ∧
      (∀ p ∈ cs, fbsGet u'.cells (u.get_index p.1 p.2) = state) ∧
      (∀ row col, row < u.height → col < u.width → (row, col) ∉ cs →
        fbsGet u'.cells (u.get_index row col) =
          fbsGet u.cells (u.get_index row col)) := by
  obtain ⟨u', h1, h2, h3, _h4, h5, h6⟩ := set_cells_spec state cs u hInv hin
  refine ⟨u', h1, h2, h3, fun p hp => h5 p hp, ?_⟩
  intro row col hr hc hnot
  have havoid : ∀ p ∈ cs, u.get_index row col ≠ p.1 * u.width + p.2 := by
    intro p hp heq
    obtain ⟨hp1, hp2⟩ := hin p hp
    obtain ⟨e1, e2⟩ := get_index_inj u.width row col p.1 p.2 hc hp2 heq
    have hpq : (row, col) = p := by rw [e1, e2]
    exact hnot (hpq ▸ hp)
  rw [fbsGet, fbsGet, List.getD_eq_getElem?_getD, List.getD_eq_getElem?_getD,
    h6 _ havoid]

theorem set_cells_last_write_wins_witness :
    ∃ u', exSquare.set_cells [(0, 0), (1, 2), (0, 0)] true = some u' ∧
      u'.width = exSquare.width ∧ u'.height = exSquare.height ∧
      (∀ p ∈ [((0 : Nat), (0 : Nat)), (1, 2), (0, 0)],
        fbsGet u'.cells (exSquare.get_index p.1 p.2) = true) ∧
      (∀ row col, row < exSquare.height → col < exSquare.width →
        (row, col) ∉ [((0 : Nat), (0 : Nat)), (1, 2), (0, 0)] →
        fbsGet u'.cells (exSquare.get_index row col) =
          fbsGet exSquare.cells (exSquare.get_index row col)) :=
  set_cells_last_write_wins exSquare (by decide) [(0, 0), (1, 2), (0, 0)] true
    (by decide)

/-- C9: `toggle_cell` on an in-range coordinate succeeds, flips exactly
the bit at flat index `row*width + col`, leaves `width`, `height` and
every other bit unchanged, and applying it twice restores the original
universe exactly. -/
theorem toggle_cell_involution (u : Universe) (hInv : u.Inv) (row col : Nat)
    (hr : row < u.height) (hc : col < u.width) :
    ∃ u', u.toggle_cell row col = some u' ∧
      u'.width = u.width ∧ u'.height = u.height ∧
      fbsGet u'.cells (u.get_index row col) =
        !(fbsGet u.cells (u.get_index row col)) ∧
      (∀ j, j ≠ u.get_index row col → u'.cells[j]? = u.cells[j]?) ∧
      u'.toggle_cell row col = some u := by
  have hidx : u.get_index row col < u.cells.length :=
    get_index_lt u hInv row col hr hc
  refine ⟨Universe.mk u.width u.height
    (u.cells.set (u.get_index row col) (!(fbsGet u.cells (u.get_index row col)))),
    ?_, rfl, rfl, ?_, ?_, ?_⟩
  · rw [toggle_cell_eq, if_pos hidx]
  · rw [fbsGet, List.getD_eq_getElem?_getD, List.getElem?_set_self hidx]
    rfl
  · intro j hj
    exact List.getElem?_set_ne (fun e => hj e.symm)
  · rw [toggle_cell_eq]
    have hlen2 : (u.cells.set (u.get_index row col)
        (!(fbsGet u.cells (u.get_index row col)))).length = u.cells.length :=
      List.length_set _ _ _
    have hidx2 : (Universe.mk u.width u.height
        (u.cells.set (u.get_index row col)
          (!(fbsGet u.cells (u.get_index row col))))).get_index row col <
        (Universe.mk u.width u.height
          (u.cells.set (u.get_index row col)
            (!(fbsGet u.cells (u.get_index row col))))).cells.length := by
      show u.get_index row col < _
      rw [show (Universe.mk u.width u.height
        (u.cells.set (u.get_index row col)
          (!(fbsGet u.cells (u.get_index row col))))).cells.length =
          u.cells.length from hlen2]
      exact hidx
    rw [if_pos hidx2]
    have hbit : fbsGet (u.cells.set (u.get_index row col)
        (!(fbsGet u.cells (u.get_index row col)))) (u.get_index row col) =
        !(fbsGet u.cells (u.get_index row col)) := by
      rw [fbsGet, List.getD_eq_getElem?_getD, List.getElem?_set_self hidx]
      rfl
    congr 1
    show Universe.mk u.width u.height _ = u
    rw [show (Universe.mk u.width u.height
      (u.cells.set (u.get_index row col)
        (!(fbsGet u.cells (u.get_index row col))))).get_index row col =
      u.get_index row col from rfl]
    rw [hbit, List.set_set, Bool.not_not]
    rw [show (fbsGet u.cells (u.get_index row col)) =
      u.cells.getD (u.get_index row col) false from rfl]
    rw [set_getD_self u.cells (u.get_index row col) hidx]

theorem toggle_cell_involution_witness :
    ∃ u', exBlinker.toggle_cell 2 2 = some u' ∧
      u'.width = exBlinker.width ∧ u'.height = exBlinker.height ∧
      fbsGet u'.cells (exBlinker.get_index 2 2) =
        !(fbsGet exBlinker.cells (exBlinker.get_index 2 2)) ∧
      (∀ j, j ≠ exBlinker.get_index 2 2 →
        u'.cells[j]? = exBlinker.cells[j]?) ∧
      u'.toggle_cell 2 2 = some exBlinker :=
  toggle_cell_involution exBlinker (by decide) 2 2 (by decide) (by decide)

/-- `set_cells_all` replaces the grid by `width*height` copies of
`state`. -/
theorem set_cells_all_eq (u : Universe) (state : Bool) :
    u.set_cells_all state =
      Universe.mk u.width u.height
        (List.replicate (u.width * u.height) state) := by
  show Universe.mk u.width u.height
      ((List.range (u.width * u.height)).foldl (fun bits i => bits.set i state)
        (fbsWithCapacity (u.width * u.height))) =
    Universe.mk u.width u.height (List.replicate (u.width * u.height) state)
  rw [range_foldl_set_const (u.width * u.height) state _
    (by simp [fbsWithCapacity])]

/-- C6: `set_width` (resp. `set_height`) stores the argument as the new
dimension, keeps the other dimension, and resets the grid to an all-dead
bit array of length `new_width * new_height`, regardless of prior cell
contents. -/
theorem resize_resets_state (u : Universe) (w h : Nat) :
    ((u.set_width w).width = w ∧ (u.set_width w).height = u.height ∧
      (u.set_width w).cells = List.replicate (w * u.height) false) ∧
    ((u.set_height h).height = h ∧ (u.set_height h).width = u.width ∧
      (u.set_height h).cells = List.replicate (u.width * h) false) := by
  constructor
  · refine ⟨?_, ?_, ?_⟩
    · show ((Universe.mk w u.height u.cells).set_cells_all false).width = w
      rw [set_cells_all_eq]
    · show ((Universe.mk w u.height u.cells).set_cells_all false).height = u.height
      rw [set_cells_all_eq]
    · show ((Universe.mk w u.height u.cells).set_cells_all false).cells = _
      rw [set_cells_all_eq]
  · refine ⟨?_, ?_, ?_⟩
    · show ((Universe.mk u.width h u.cells).set_cells_all false).height = h
      rw [set_cells_all_eq]
    · show ((Universe.mk u.width h u.cells).set_cells_all false).width = u.width
      rw [set_cells_all_eq]
    · show ((Universe.mk u.width h u.cells).set_cells_all false).cells = _
      rw [set_cells_all_eq]

/-- The freshly constructed grid has `width * height` bits. -/
theorem new_cells_length (w h : Nat) (rand : Nat → Bool) :
    (Universe.new w h rand).cells.length = w * h := by
  show ((List.range (w * h)).foldl (fun bits i => bits.set i (rand i))
      (fbsWithCapacity (w * h))).length = w * h
  have hshape : (List.range (w * h)).foldl (fun bits i => bits.set i (rand i))
      (fbsWithCapacity (w * h)) =
      (List.range (w * h)).foldl
        (fun a x => a.set ((fun i => i) x) ((fun i => rand i) x))
        (fbsWithCapacity (w * h)) := rfl
  rw [hshape, foldl_set_length (fun i => i) (fun i => rand i)]
  simp [fbsWithCapacity]

/-- A successful `set_cells` call preserves dimensions and bit-array
length (no in-range assumption needed). -/
theorem set_cells_some_dims (state : Bool) :
    ∀ (cs : List (Nat × Nat)) (u u' : Universe),
      u.set_cells cs state = some u' →
      u'.width = u.width ∧ u'.height = u.height ∧
      u'.cells.length = u.cells.length := by
  intro cs
  induction cs with
  | nil =>
    intro u u' h
    injection h with e
    subst e
    exact ⟨rfl, rfl, rfl⟩
  | cons p rest ih =>
    intro u u' h
    obtain ⟨row, col⟩ := p
    show u'.width = u.width ∧ u'.height = u.height ∧
      u'.cells.length = u.cells.length
    have h' : (match fbsSet u.cells (u.get_index row col) state with
        | none => none
        | some cells' =>
          Universe.set_cells { u with cells := cells' } rest state) = some u' := h
    cases hf : fbsSet u.cells (u.get_index row col) state with
    | none => rw [hf] at h'; cases h'
    | some cells' =>
      rw [hf] at h'
      obtain ⟨hc1, hc2⟩ := fbsSet_some hf
      obtain ⟨e1, e2, e3⟩ := ih { u with cells := cells' } u' h'
      refine ⟨e1, e2, ?_⟩
      rw [e3]
      show cells'.length = u.cells.length
      rw [hc1, List.length_set]

/-- C5: the invariant `cells.length = width * height` holds after
construction (`new`) and is preserved by every operation of the
`Universe` (`set_width`, `set_height`, the single-cell, list and
whole-grid mutators in all their alive/dead variants, and `tick`). -/
theorem length_invariant_preserved (u u1 u2 u3 : Universe)
    (w h row col : Nat) (state : Bool) (rand : Nat → Bool)
    (cs : List (Nat × Nat)) (hInv : u.Inv) :
    (Universe.new w h rand).Inv ∧
    (u.set_width w).Inv ∧
    (u.set_height h).Inv ∧
    (u.set_cells_all state).Inv ∧
    u.set_cells_alive_all.Inv ∧
    u.set_cells_dead_all.Inv ∧
    (u.set_cell row col state = some u1 → u1.Inv) ∧
    (u.set_cell_alive row col = some u1 → u1.Inv) ∧
    (u.set_cell_dead row col = some u1 → u1.Inv) ∧
    (u.toggle_cell row col = some u2 → u2.Inv) ∧
    (u.set_cells cs state = some u3 → u3.Inv) ∧
    (u.set_cells_alive cs = some u3 → u3.Inv) ∧
    (u.set_cells_dead cs = some u3 → u3.Inv) ∧
    u.tick.Inv := by
  have hall : ∀ (v : Universe) (s : Bool), (v.set_cells_all s).Inv := by
    intro v s
    rw [set_cells_all_eq]
    show (List.replicate (v.width * v.height) s).length = v.width * v.height
    exact List.length_replicate _ _
  have hsetc : ∀ (s : Bool) (v : Universe),
      u.set_cell row col s = some v → v.Inv := by
    intro s v hv
    rw [set_cell_eq] at hv
    split_ifs at hv with hlt
    · injection hv with e
      subst e
      show (u.cells.set (u.get_index row col) s).length = u.width * u.height
      rw [List.length_set]
      exact hInv
  have hcs : ∀ (s : Bool) (v : Universe),
      u.set_cells cs s = some v → v.Inv := by
    intro s v hv
    obtain ⟨e1, e2, e3⟩ := set_cells_some_dims s cs u v hv
    show v.cells.length = v.width * v.height
    rw [e1, e2, e3]
    exact hInv
  refine ⟨?_, hall (Universe.mk w u.height u.cells) false,
    hall (Universe.mk u.width h u.cells) false,
    hall u state, hall u true, hall u false,
    hsetc state u1, hsetc true u1, hsetc false u1, ?_,
    hcs state u3, hcs true u3, hcs false u3, ?_⟩
  · show (Universe.new w h rand).cells.length = w * h
    exact new_cells_length w h rand
  · intro hv
    rw [toggle_cell_eq] at hv
    split_ifs at hv with hlt
    · injection hv with e
      subst e
      show (u.cells.set (u.get_index row col) _).length = u.width * u.height
      rw [List.length_set]
      exact hInv
  · show u.tick.cells.length = u.width * u.height
    rw [Universe.tick_cells_eq, Universe.tickFold_length]
    exact hInv

theorem length_invariant_preserved_witness :
    (Universe.new 4 2 (fun _ => true)).Inv ∧
    (exSquare.set_width 4).Inv ∧
    (exSquare.set_height 2).Inv ∧
    (exSquare.set_cells_all true).Inv ∧
    exSquare.set_cells_alive_all.Inv ∧
    exSquare.set_cells_dead_all.Inv ∧
    (exSquare.set_cell 0 0 true =
      some (Universe.mk 3 3 [true, false, false, false, false, false,
        false, false, false]) →
      (Universe.mk 3 3 [true, false, false, false, false, false,
        false, false, false]).Inv) ∧
    (exSquare.set_cell_alive 0 0 =
      some (Universe.mk 3 3 [true, false, false, false, false, false,
        false, false, false]) →
      (Universe.mk 3 3 [true, false, false, false, false, false,
        false, false, false]).Inv) ∧
    (exSquare.set_cell_dead 0 0 =
      some (Universe.mk 3 3 [true, false, false, false, false, false,
        false, false, false]) →
      (Universe.mk 3 3 [true, false, false, false, false, false,
        false, false, false]).Inv) ∧
    (exSquare.toggle_cell 0 0 =
      some (Universe.mk 3 3 [true, false, false, false, false, false,
        false, false, false]) →
      (Universe.mk 3 3 [true, false, false, false, false, false,
        false, false, false]).Inv) ∧
    (exSquare.set_cells [(1, 1)] true =
      some (Universe.mk 3 3 [false, false, false, false, true, false,
        false, false, false]) →
      (Universe.mk 3 3 [false, false, false, false, true, false,
        false, false, false]).Inv) ∧
    (exSquare.set_cells_alive [(1, 1)] =
      some (Universe.mk 3 3 [false, false, false, false, true, false,
        false, false, false]) →
      (Universe.mk 3 3 [false, false, false, false, true, false,
        false, false, false]).Inv) ∧
    (exSquare.set_cells_dead [(1, 1)] =
      some (Universe.mk 3 3 [false, false, false, false, true, false,
        false, false, false]) →
      (Universe.mk 3 3 [false, false, false, false, true, false,
        false, false, false]).Inv) ∧
    exSquare.tick.Inv :=
  length_invariant_preserved exSquare
    (Universe.mk 3 3 [true, false, false, false, false, false,
      false, false, false])
    (Universe.mk 3 3 [true, false, false, false, false, false,
      false, false, false])
    (Universe.mk 3 3 [false, false, false, false, true, false,
      false, false, false])
    4 2 0 0 true (fun _ => true) [(1, 1)] (by decide)
